import Mathlib

/-!
Shallow embedding of `src/spreadsheet.py` (spreadsheet-unprotect).

Member contents are modelled as `List Char`: the source only ever treats a
member either as an opaque byte string copied verbatim, or as UTF-8 text that
is decoded, rewritten and re-encoded; since UTF-8 decode/encode is a
bijection between valid byte strings and character sequences, we identify the
two views and model both as the character sequence.
-/

namespace SpreadsheetUnprotect

/-- Errors an operation can surface. `badSpreadsheet msg` models the
repository's `BadSpreadsheetError(msg)`; the remaining constructors model
Python built-in exception classes escaping untyped (`KeyError`, `TypeError`,
`IndexError`, `AttributeError`, `ValueError`). -/
inductive PyErr where
  | badSpreadsheet (msg : String)
  | keyError
  | typeError
  | indexError
  | attributeError
  | valueError (msg : String)
deriving DecidableEq

/-- Boolean test that `pat` is a leading segment of `s`: the anchored literal
part of a regex match attempt at one scan position. -/
def isPre : List Char → List Char → Bool
  | [], _ => true
  | _ :: _, [] => false
  | a :: as, b :: bs => a == b && isPre as bs

/-- Python substring test `pat in s`: `pat` matches at some scan position. -/
def containsSub (pat : List Char) : List Char → Bool
  | [] => pat.isEmpty
  | c :: cs => isPre pat (c :: cs) || containsSub pat cs

/-- Scan for the first literal gt character and return the remainder after
it: the lazy `[\s\S]*?>` tail of the substitution patterns consumes exactly
up to the first gt character after the literal tag prefix. -/
def findGt : List Char → Option (List Char)
  | [] => none
  | c :: cs => if c = '>' then some cs else findGt cs

/-- One left-to-right pass of `re.sub(pattern, "", xml)` for a pattern of the
shape literal-tag followed by a lazy any-character run and a closing gt, as
compiled in `_getUnprotectedXml`.  At each position: if the literal tag
matches and a gt character follows, the whole span through the first such gt
is deleted and scanning resumes after it; otherwise the scan advances one
character.  `fuel` is a structural-recursion bound; callers pass the length
of the string, which always suffices because every step consumes at least
one character. -/
def stripTagAux (tag : List Char) : Nat → List Char → List Char
  | _, [] => []
  | 0, s => s
  | fuel + 1, c :: cs =>
    if isPre tag (c :: cs) then
      match findGt (List.drop tag.length (c :: cs)) with
      | some rest => stripTagAux tag fuel rest
      | none => c :: stripTagAux tag fuel cs
    else c :: stripTagAux tag fuel cs

/-- `re.sub(r"<TAG[\s\S]*?>", "", xml)` where `tag` is the literal
`"<TAG"` prefix of the pattern. -/
def stripTag (tag : List Char) (s : List Char) : List Char :=
  stripTagAux tag s.length s

/-- The literal prefix of the sheet-protection substitution pattern. -/
def sheetProtLit : List Char := "<sheetProtection".data

/-- The literal prefix of the workbook-protection substitution pattern. -/
def workbookProtLit : List Char := "<workbookProtection".data

/-- `SpreadsheetWriter._getUnprotectedXml`: dispatch on the `type` tag and
run the corresponding substitution; an unknown tag raises `ValueError`. -/
def getUnprotectedXml (type : String) (xml : List Char) : Except PyErr (List Char) :=
  if type = "sheet" then .ok (stripTag sheetProtLit xml)
  else if type = "workbook" then .ok (stripTag workbookProtLit xml)
  else .error (.valueError "unknown type")

/-- One archive member: its archive-internal name and its content. -/
structure ZipEntry where
  filename : String
  data : List Char
deriving DecidableEq

/-- `SpreadsheetWriter.loadUnprotect`: iterate the source members in order;
first matching rule wins.  The source calls `_getUnprotectedXml` with the
literal type tags `"workbook"` and `"sheet"`, which select exactly the
`stripTag workbookProtLit` and `stripTag sheetProtLit` substitutions (see
`getUnprotectedXml_workbook_eq` and `getUnprotectedXml_sheet_eq`); the
`sheets` argument is taken already coerced to the list of archive paths the
source derives on lines 158-170. -/
def loadUnprotect (members : List ZipEntry) (workbook : Bool)
    (sheetsToUnprotect : List String) (dumpVba : Bool) : List ZipEntry :=
  match members with
  | [] => []
  | e :: rest =>
    if workbook ∧ e.filename = "xl/workbook.xml" then
      ⟨e.filename, stripTag workbookProtLit e.data⟩ ::
        loadUnprotect rest workbook sheetsToUnprotect dumpVba
    else if e.filename ∈ sheetsToUnprotect then
      ⟨e.filename, stripTag sheetProtLit e.data⟩ ::
        loadUnprotect rest workbook sheetsToUnprotect dumpVba
    else if dumpVba ∧ e.filename = "xl/vbaProject.bin" then
      loadUnprotect rest workbook sheetsToUnprotect dumpVba
    else e :: loadUnprotect rest workbook sheetsToUnprotect dumpVba

/-- The dispatch in `loadUnprotect` on the workbook branch is exactly the
workbook substitution. -/
theorem getUnprotectedXml_workbook_eq (xml : List Char) :
    getUnprotectedXml "workbook" xml = .ok (stripTag workbookProtLit xml) := rfl

/-- The dispatch in `loadUnprotect` on the sheet branch is exactly the sheet
substitution. -/
theorem getUnprotectedXml_sheet_eq (xml : List Char) :
    getUnprotectedXml "sheet" xml = .ok (stripTag sheetProtLit xml) := rfl

/-- A member is untouched by `loadUnprotect` when none of the three
transforming/dropping rules applies to it. -/
def untouched (workbook : Bool) (sheetsToUnprotect : List String) (dumpVba : Bool)
    (e : ZipEntry) : Bool :=
  !(workbook && decide (e.filename = "xl/workbook.xml"))
    && !(decide (e.filename ∈ sheetsToUnprotect))
    && !(dumpVba && decide (e.filename = "xl/vbaProject.bin"))

/-- A member's name is kept in the output (it is not the macro payload being
dropped; transformed members keep their names). -/
def keptName (workbook : Bool) (sheetsToUnprotect : List String) (dumpVba : Bool)
    (e : ZipEntry) : Bool :=
  (workbook && decide (e.filename = "xl/workbook.xml"))
    || decide (e.filename ∈ sheetsToUnprotect)
    || !(dumpVba && decide (e.filename = "xl/vbaProject.bin"))

/-- No tag-pattern match starts at any position strictly inside `u` when the
scanned string is `u ++ s`: checked for every nonempty suffix of `u`. -/
def noHitBefore (tag : List Char) : List Char → List Char → Bool
  | [], _ => true
  | c :: u, s => !(isPre tag (c :: (u ++ s))) && noHitBefore tag u s

theorem findGt_some_length {l r : List Char} (h : findGt l = some r) :
    r.length < l.length := by
  induction l with
  | nil => simp [findGt] at h
  | cons c cs ih =>
    by_cases hc : c = '>'
    · simp [findGt, hc] at h
      subst h
      simp
    · simp [findGt, hc] at h
      exact Nat.lt_trans (ih h) (by simp)

theorem stripTagAux_irrel (tag : List Char) :
    ∀ (f1 f2 : Nat) (s : List Char), s.length ≤ f1 → s.length ≤ f2 →
      stripTagAux tag f1 s = stripTagAux tag f2 s := by
  intro f1
  induction f1 with
  | zero =>
    intro f2 s h1 h2
    have hs : s = [] := List.eq_nil_of_length_eq_zero (Nat.le_zero.mp h1)
    subst hs
    cases f2 <;> rfl
  | succ f ih =>
    intro f2 s h1 h2
    cases s with
    | nil => cases f2 <;> rfl
    | cons c cs =>
      cases f2 with
      | zero => exact absurd h2 (by simp)
      | succ g =>
        simp only [stripTagAux]
        by_cases hp : isPre tag (c :: cs) = true
        · cases hg : findGt (List.drop tag.length (c :: cs)) with
          | some rest =>
            simp only [hp, hg, if_true]
            have hlt : rest.length < (List.drop tag.length (c :: cs)).length :=
              findGt_some_length hg
            have hd : (List.drop tag.length (c :: cs)).length ≤ cs.length + 1 := by
              simp [List.length_drop]
            have h1' : (c :: cs).length ≤ f + 1 := h1
            have h2' : (c :: cs).length ≤ g + 1 := h2
            simp only [List.length_cons] at h1' h2'
            exact ih rest.length rest (by omega) (by omega) ▸
              (ih g rest (by omega) (by omega))
          | none =>
            simp only [hp, hg, if_true]
            have h1' : (c :: cs).length ≤ f + 1 := h1
            have h2' : (c :: cs).length ≤ g + 1 := h2
            simp only [List.length_cons] at h1' h2'
            exact congrArg (c :: ·) (ih g cs (by omega) (by omega))
        · simp only [Bool.not_eq_true] at hp
          simp only [hp, if_false, Bool.false_eq_true]
          have h1' : (c :: cs).length ≤ f + 1 := h1
          have h2' : (c :: cs).length ≤ g + 1 := h2
          simp only [List.length_cons] at h1' h2'
          exact congrArg (c :: ·) (ih g cs (by omega) (by omega))

theorem stripTag_cons_not_pre {tag : List Char} {c : Char} {cs : List Char}
    (h : isPre tag (c :: cs) = false) :
    stripTag tag (c :: cs) = c :: stripTag tag cs := by
  show stripTagAux tag (cs.length + 1) (c :: cs) = c :: stripTagAux tag cs.length cs
  simp [stripTagAux, h]

theorem stripTag_cons_pre_some {tag : List Char} {c : Char} {cs rest : List Char}
    (hp : isPre tag (c :: cs) = true)
    (hg : findGt (List.drop tag.length (c :: cs)) = some rest) :
    stripTag tag (c :: cs) = stripTag tag rest := by
  show stripTagAux tag (cs.length + 1) (c :: cs) = stripTagAux tag rest.length rest
  simp only [stripTagAux, hp, hg, if_true]
  have hlt : rest.length < (List.drop tag.length (c :: cs)).length :=
    findGt_some_length hg
  have hd : (List.drop tag.length (c :: cs)).length ≤ cs.length + 1 := by
    simp [List.length_drop]
  exact stripTagAux_irrel tag cs.length rest.length rest (by omega) (by omega)

theorem stripTag_of_not_contains {tag : List Char} {s : List Char}
    (h : containsSub tag s = false) : stripTag tag s = s := by
  induction s with
  | nil => rfl
  | cons c cs ih =>
    simp only [containsSub, Bool.or_eq_false_iff] at h
    rw [stripTag_cons_not_pre h.1, ih h.2]

theorem stripTag_append {tag u s : List Char}
    (hu : noHitBefore tag u s = true) :
    stripTag tag (u ++ s) = u ++ stripTag tag s := by
  induction u with
  | nil => rfl
  | cons c u' ih =>
    simp only [noHitBefore, Bool.and_eq_true, Bool.not_eq_true'] at hu
    rw [List.cons_append, stripTag_cons_not_pre hu.1, ih hu.2, List.cons_append]

theorem isPre_append_self (tag x : List Char) : isPre tag (tag ++ x) = true := by
  induction tag with
  | nil => rfl
  | cons a as ih => simp [isPre, ih]

theorem findGt_no_gt {mid v : List Char} (h : '>' ∉ mid) :
    findGt (mid ++ '>' :: v) = some v := by
  induction mid with
  | nil => simp [findGt]
  | cons c cs ih =>
    simp only [List.mem_cons, not_or] at h
    have hc : c ≠ '>' := fun hh => h.1 hh.symm
    simp [findGt, hc, ih h.2]

/-- A part of the shape `u ++ tag ++ mid ++ ">" ++ v` whose only pattern hit
starts right after `u`: the substitution removes exactly the span
`tag ++ mid ++ ">"`. -/
theorem stripTag_single_removal (tag u mid v : List Char)
    (hu : noHitBefore tag u (tag ++ (mid ++ '>' :: v)) = true)
    (hmid : '>' ∉ mid) (hv : containsSub tag v = false) :
    stripTag tag (u ++ (tag ++ (mid ++ '>' :: v))) = u ++ v := by
  rw [stripTag_append hu]
  have hne : tag ++ (mid ++ '>' :: v) ≠ [] := by
    cases tag <;> cases mid <;> simp
  obtain ⟨c, cs, hcs⟩ := List.exists_cons_of_ne_nil hne
  rw [hcs]
  have hp : isPre tag (c :: cs) = true := by
    rw [← hcs]
    exact isPre_append_self tag _
  have hg : findGt (List.drop tag.length (c :: cs)) = some v := by
    rw [← hcs, List.drop_left, findGt_no_gt hmid]
  rw [stripTag_cons_pre_some hp hg, stripTag_of_not_contains hv]

/-- C1 counterexample: on a part holding two matching sheet-protection start
tags, the substitution of `_getUnprotectedXml` removes both occurrences, so
the second occurrence is not left in the output and the result differs from
the source with only the first element removed. -/
theorem c1_counterexample :
    getUnprotectedXml "sheet"
        ("<sheetProtection a=\"1\"/><sheetProtection b=\"2\"/>rest".data)
      = .ok ("rest".data)
    ∧ containsSub sheetProtLit ("rest".data) = false
    ∧ ("rest".data : List Char) ≠ "<sheetProtection b=\"2\"/>rest".data :=
  ⟨rfl, by decide, by decide⟩

/-- C1 amended: the substitution removes every matching occurrence in one
left-to-right pass; on a part whose only pattern hit is a single protection
element `tag ++ mid ++ ">"`, the transformed text equals the source text
with exactly that one element removed. -/
theorem c1_theorem (type : String) (tag u mid v : List Char)
    (hty : (type = "sheet" ∧ tag = sheetProtLit)
      ∨ (type = "workbook" ∧ tag = workbookProtLit))
    (hu : noHitBefore tag u (tag ++ (mid ++ '>' :: v)) = true)
    (hmid : '>' ∉ mid) (hv : containsSub tag v = false) :
    getUnprotectedXml type (u ++ (tag ++ (mid ++ '>' :: v))) = .ok (u ++ v) := by
  rcases hty with ⟨h1, h2⟩ | ⟨h1, h2⟩ <;> subst h1 <;> subst h2
  · rw [getUnprotectedXml_sheet_eq, stripTag_single_removal _ _ _ _ hu hmid hv]
  · rw [getUnprotectedXml_workbook_eq, stripTag_single_removal _ _ _ _ hu hmid hv]

/-- C1 witness: a concrete worksheet part with one sheet-protection element,
transformed to the same part with exactly that element removed. -/
theorem c1_witness :
    noHitBefore sheetProtLit "<worksheet>".data
        (sheetProtLit ++ (" password=\"abc\"/".data ++ '>' :: "</worksheet>".data)) = true
    ∧ '>' ∉ " password=\"abc\"/".data
    ∧ containsSub sheetProtLit "</worksheet>".data = false
    ∧ getUnprotectedXml "sheet"
        ("<worksheet>".data
          ++ (sheetProtLit ++ (" password=\"abc\"/".data ++ '>' :: "</worksheet>".data)))
      = .ok ("<worksheet>".data ++ "</worksheet>".data) :=
  ⟨by decide, by decide, by decide,
    c1_theorem "sheet" sheetProtLit "<worksheet>".data " password=\"abc\"/".data
      "</worksheet>".data (Or.inl ⟨rfl, rfl⟩) (by decide) (by decide) (by decide)⟩

/-- C5 counterexample: the unprotect substitution is not idempotent: removal
can splice a new matching element together, and the second pass removes it,
changing the content again; in particular the output of the first pass still
contains a matching protection element. -/
theorem c5_counterexample :
    getUnprotectedXml "sheet" ("<sheetProt<sheetProtection>ection>".data)
      = .ok ("<sheetProtection>".data)
    ∧ getUnprotectedXml "sheet" ("<sheetProtection>".data) = .ok ([] : List Char)
    ∧ ("<sheetProtection>".data : List Char) ≠ [] :=
  ⟨rfl, rfl, by decide⟩

/-- C5 amended: applying the substitution to a part that holds no occurrence
of the protection tag literal returns the content unchanged. -/
theorem c5_theorem (type : String) (tag : List Char) (xml : List Char)
    (hty : (type = "sheet" ∧ tag = sheetProtLit)
      ∨ (type = "workbook" ∧ tag = workbookProtLit))
    (hx : containsSub tag xml = false) :
    getUnprotectedXml type xml = .ok xml := by
  rcases hty with ⟨h1, h2⟩ | ⟨h1, h2⟩ <;> subst h1 <;> subst h2
  · rw [getUnprotectedXml_sheet_eq, stripTag_of_not_contains hx]
  · rw [getUnprotectedXml_workbook_eq, stripTag_of_not_contains hx]

/-- C5 witness: a concrete already-unprotected worksheet part is returned
unchanged by the substitution. -/
theorem c5_witness :
    containsSub sheetProtLit "<worksheet><x/></worksheet>".data = false
    ∧ getUnprotectedXml "sheet" ("<worksheet><x/></worksheet>".data)
      = .ok ("<worksheet><x/></worksheet>".data) :=
  ⟨by decide,
    c5_theorem "sheet" sheetProtLit "<worksheet><x/></worksheet>".data
      (Or.inl ⟨rfl, rfl⟩) (by decide)⟩

theorem untouched_false_wb {workbook : Bool} {sh : List String} {dv : Bool}
    {e : ZipEntry} (h : workbook = true ∧ e.filename = "xl/workbook.xml") :
    untouched workbook sh dv e = false := by
  simp [untouched, h.1, h.2]

theorem untouched_false_sheet {workbook : Bool} {sh : List String} {dv : Bool}
    {e : ZipEntry} (h : e.filename ∈ sh) : untouched workbook sh dv e = false := by
  simp [untouched, h]

theorem untouched_false_vba {workbook : Bool} {sh : List String} {dv : Bool}
    {e : ZipEntry} (h : dv = true ∧ e.filename = "xl/vbaProject.bin") :
    untouched workbook sh dv e = false := by
  simp [untouched, h.1, h.2]

theorem untouched_true {workbook : Bool} {sh : List String} {dv : Bool}
    {e : ZipEntry} (h1 : ¬(workbook = true ∧ e.filename = "xl/workbook.xml"))
    (h2 : e.filename ∉ sh)
    (h3 : ¬(dv = true ∧ e.filename = "xl/vbaProject.bin")) :
    untouched workbook sh dv e = true := by
  have ha : (workbook && decide (e.filename = "xl/workbook.xml")) = false := by
    cases workbook with
    | false => simp
    | true =>
      simp only [Bool.true_and, decide_eq_false_iff_not]
      exact fun ha => h1 ⟨rfl, ha⟩
  have hc : (dv && decide (e.filename = "xl/vbaProject.bin")) = false := by
    cases dv with
    | false => simp
    | true =>
      simp only [Bool.true_and, decide_eq_false_iff_not]
      exact fun hb => h3 ⟨rfl, hb⟩
  simp [untouched, ha, hc, h2]

theorem keptName_true_wb {workbook : Bool} {sh : List String} {dv : Bool}
    {e : ZipEntry} (h : workbook = true ∧ e.filename = "xl/workbook.xml") :
    keptName workbook sh dv e = true := by
  simp [keptName, h.1, h.2]

theorem keptName_true_sheet {workbook : Bool} {sh : List String} {dv : Bool}
    {e : ZipEntry} (h : e.filename ∈ sh) : keptName workbook sh dv e = true := by
  simp [keptName, h]

theorem keptName_false_vba {workbook : Bool} {sh : List String} {dv : Bool}
    {e : ZipEntry} (h1 : ¬(workbook = true ∧ e.filename = "xl/workbook.xml"))
    (h2 : e.filename ∉ sh)
    (h3 : dv = true ∧ e.filename = "xl/vbaProject.bin") :
    keptName workbook sh dv e = false := by
  have ha : (workbook && decide (e.filename = "xl/workbook.xml")) = false := by
    cases workbook with
    | false => simp
    | true =>
      simp only [Bool.true_and, decide_eq_false_iff_not]
      exact fun hx => h1 ⟨rfl, hx⟩
  have h2' : "xl/vbaProject.bin" ∉ sh := h3.2 ▸ h2
  simp [keptName, ha, h2, h2', h3.1, h3.2]

theorem keptName_true_rest {workbook : Bool} {sh : List String} {dv : Bool}
    {e : ZipEntry} (h3 : ¬(dv = true ∧ e.filename = "xl/vbaProject.bin")) :
    keptName workbook sh dv e = true := by
  have hc : (dv && decide (e.filename = "xl/vbaProject.bin")) = false := by
    cases dv with
    | false => simp
    | true =>
      simp only [Bool.true_and, decide_eq_false_iff_not]
      exact fun hb => h3 ⟨rfl, hb⟩
  simp [keptName, hc]

/-- C2: members untouched by all three rules of `loadUnprotect` reach the
output with identical content and in their source order (first conjunct),
and the output's member-name sequence is the source's name sequence with
exactly the dropped macro payload removed (second conjunct). -/
theorem c2_frame_roundtrip (members : List ZipEntry) (workbook : Bool)
    (sheetsToUnprotect : List String) (dumpVba : Bool) :
    (loadUnprotect members workbook sheetsToUnprotect dumpVba).filter
        (untouched workbook sheetsToUnprotect dumpVba)
      = members.filter (untouched workbook sheetsToUnprotect dumpVba)
    ∧ (loadUnprotect members workbook sheetsToUnprotect dumpVba).map ZipEntry.filename
      = (members.filter (keptName workbook sheetsToUnprotect dumpVba)).map
          ZipEntry.filename := by
  induction members with
  | nil => exact ⟨rfl, rfl⟩
  | cons e rest ih =>
    obtain ⟨ih1, ih2⟩ := ih
    by_cases h1 : workbook = true ∧ e.filename = "xl/workbook.xml"
    · have hu : untouched workbook sheetsToUnprotect dumpVba e = false :=
        untouched_false_wb h1
      have hu' : untouched workbook sheetsToUnprotect dumpVba
          ⟨e.filename, stripTag workbookProtLit e.data⟩ = false := hu
      have hk : keptName workbook sheetsToUnprotect dumpVba e = true :=
        keptName_true_wb h1
      simp only [loadUnprotect, if_pos h1]
      exact ⟨by simp [List.filter_cons, hu, hu', ih1],
        by simp [List.filter_cons, hk, ih2]⟩
    · by_cases h2 : e.filename ∈ sheetsToUnprotect
      · have hu : untouched workbook sheetsToUnprotect dumpVba e = false :=
          untouched_false_sheet h2
        have hu' : untouched workbook sheetsToUnprotect dumpVba
            ⟨e.filename, stripTag sheetProtLit e.data⟩ = false := hu
        have hk : keptName workbook sheetsToUnprotect dumpVba e = true :=
          keptName_true_sheet h2
        simp only [loadUnprotect, if_neg h1, if_pos h2]
        exact ⟨by simp [List.filter_cons, hu, hu', ih1],
          by simp [List.filter_cons, hk, ih2]⟩
      · by_cases h3 : dumpVba = true ∧ e.filename = "xl/vbaProject.bin"
        · have hu : untouched workbook sheetsToUnprotect dumpVba e = false :=
            untouched_false_vba h3
          have hk : keptName workbook sheetsToUnprotect dumpVba e = false :=
            keptName_false_vba h1 h2 h3
          simp only [loadUnprotect, if_neg h1, if_neg h2, if_pos h3]
          exact ⟨by simp [List.filter_cons, hu, ih1],
            by simp [List.filter_cons, hk, ih2]⟩
        · have hu : untouched workbook sheetsToUnprotect dumpVba e = true :=
            untouched_true h1 h2 h3
          have hk : keptName workbook sheetsToUnprotect dumpVba e = true :=
            keptName_true_rest h3
          simp only [loadUnprotect, if_neg h1, if_neg h2, if_neg h3]
          exact ⟨by simp [List.filter_cons, hu, ih1],
            by simp [List.filter_cons, hk, ih2]⟩

/-- C8: with the macro-removal flag set and the payload path not among the
sheets selected for transformation, the output holds no member named
`xl/vbaProject.bin`, and every other source member's name is present in the
output. -/
theorem c8_dumpvba (members : List ZipEntry) (workbook : Bool)
    (sheetsToUnprotect : List String)
    (hvba : "xl/vbaProject.bin" ∉ sheetsToUnprotect) :
    (∀ e ∈ loadUnprotect members workbook sheetsToUnprotect true,
        e.filename ≠ "xl/vbaProject.bin")
    ∧ (∀ e ∈ members, e.filename ≠ "xl/vbaProject.bin" →
        ∃ e' ∈ loadUnprotect members workbook sheetsToUnprotect true,
          e'.filename = e.filename) := by
  induction members with
  | nil => exact ⟨by simp [loadUnprotect], by simp⟩
  | cons e rest ih =>
    obtain ⟨ih1, ih2⟩ := ih
    by_cases h1 : workbook = true ∧ e.filename = "xl/workbook.xml"
    · constructor
      · intro x hx
        rw [loadUnprotect, if_pos h1] at hx
        rcases List.mem_cons.mp hx with hx | hx
        · subst hx
          simp [h1.2]
        · exact ih1 x hx
      · intro x hx hxn
        rcases List.mem_cons.mp hx with hx | hx
        · subst hx
          refine ⟨⟨x.filename, stripTag workbookProtLit x.data⟩, ?_, rfl⟩
          rw [loadUnprotect, if_pos h1]
          exact List.mem_cons_self _ _
        · obtain ⟨e', he', hfn⟩ := ih2 x hx hxn
          refine ⟨e', ?_, hfn⟩
          rw [loadUnprotect, if_pos h1]
          exact List.mem_cons_of_mem _ he'
    · by_cases h2 : e.filename ∈ sheetsToUnprotect
      · have hne : e.filename ≠ "xl/vbaProject.bin" := fun hh => hvba (hh ▸ h2)
        constructor
        · intro x hx
          rw [loadUnprotect, if_neg h1, if_pos h2] at hx
          rcases List.mem_cons.mp hx with hx | hx
          · subst hx
            exact hne
          · exact ih1 x hx
        · intro x hx hxn
          rcases List.mem_cons.mp hx with hx | hx
          · subst hx
            refine ⟨⟨x.filename, stripTag sheetProtLit x.data⟩, ?_, rfl⟩
            rw [loadUnprotect, if_neg h1, if_pos h2]
            exact List.mem_cons_self _ _
          · obtain ⟨e', he', hfn⟩ := ih2 x hx hxn
            refine ⟨e', ?_, hfn⟩
            rw [loadUnprotect, if_neg h1, if_pos h2]
            exact List.mem_cons_of_mem _ he'
      · by_cases h3 : e.filename = "xl/vbaProject.bin"
        · have h3' : (true : Bool) = true ∧ e.filename = "xl/vbaProject.bin" :=
            ⟨rfl, h3⟩
          constructor
          · intro x hx
            rw [loadUnprotect, if_neg h1, if_neg h2, if_pos h3'] at hx
            exact ih1 x hx
          · intro x hx hxn
            rcases List.mem_cons.mp hx with hx | hx
            · exact absurd (hx ▸ h3) hxn
            · obtain ⟨e', he', hfn⟩ := ih2 x hx hxn
              refine ⟨e', ?_, hfn⟩
              rw [loadUnprotect, if_neg h1, if_neg h2, if_pos h3']
              exact he'
        · have h3' : ¬((true : Bool) = true ∧ e.filename = "xl/vbaProject.bin") :=
            fun hh => h3 hh.2
          constructor
          · intro x hx
            rw [loadUnprotect, if_neg h1, if_neg h2, if_neg h3'] at hx
            rcases List.mem_cons.mp hx with hx | hx
            · subst hx
              exact h3
            · exact ih1 x hx
          · intro x hx hxn
            rcases List.mem_cons.mp hx with hx | hx
            · subst hx
              refine ⟨x, ?_, rfl⟩
              rw [loadUnprotect, if_neg h1, if_neg h2, if_neg h3']
              exact List.mem_cons_self _ _
            · obtain ⟨e', he', hfn⟩ := ih2 x hx hxn
              refine ⟨e', ?_, hfn⟩
              rw [loadUnprotect, if_neg h1, if_neg h2, if_neg h3']
              exact List.mem_cons_of_mem _ he'

/-- C8 witness: a concrete three-member package with the macro payload
present; after the transform the payload is gone and the others remain. -/
theorem c8_witness :
    ("xl/vbaProject.bin" ∉ (["xl/worksheets/sheet1.xml"] : List String))
    ∧ (∀ e ∈ loadUnprotect
          [⟨"xl/workbook.xml", "<workbook/>".data⟩,
           ⟨"xl/vbaProject.bin", "vba".data⟩,
           ⟨"xl/media/image1.png", "img".data⟩]
          false ["xl/worksheets/sheet1.xml"] true,
        e.filename ≠ "xl/vbaProject.bin")
    ∧ (∀ e ∈ ([⟨"xl/workbook.xml", "<workbook/>".data⟩,
           ⟨"xl/vbaProject.bin", "vba".data⟩,
           ⟨"xl/media/image1.png", "img".data⟩] : List ZipEntry),
        e.filename ≠ "xl/vbaProject.bin" →
        ∃ e' ∈ loadUnprotect
            [⟨"xl/workbook.xml", "<workbook/>".data⟩,
             ⟨"xl/vbaProject.bin", "vba".data⟩,
             ⟨"xl/media/image1.png", "img".data⟩]
            false ["xl/worksheets/sheet1.xml"] true,
          e'.filename = e.filename) :=
  ⟨by decide,
    (c8_dumpvba _ false ["xl/worksheets/sheet1.xml"] (by decide)).1,
    (c8_dumpvba _ false ["xl/worksheets/sheet1.xml"] (by decide)).2⟩

/-- An `xml.etree.ElementTree` element: fully-qualified tag (namespace in
Clark notation, `\x7buri\x7dlocal`), attribute dictionary in document order,
and child elements in document order. -/
inductive XmlElem where
  | mk (tag : String) (attrib : List (String × String)) (children : List XmlElem)

/-- The element's fully qualified tag. -/
def XmlElem.tag : XmlElem → String
  | .mk t _ _ => t

/-- The element's attribute dictionary as an ordered key-value list. -/
def XmlElem.attrib : XmlElem → List (String × String)
  | .mk _ a _ => a

/-- The element's child elements in document order. -/
def XmlElem.children : XmlElem → List XmlElem
  | .mk _ _ c => c

/-- Characters of `s` strictly before the first closing brace, or `none`
when there is no closing brace (the lazy `.*?` before the `\x7d` of the
namespace pattern). -/
def takeToBrace : List Char → Option (List Char)
  | [] => none
  | c :: cs => if c = '}' then some [] else (takeToBrace cs).map (fun t => c :: t)

/-- `re.compile(r"\x5c\x7b.*?\x5c\x7d").match(tag)` followed by `.group()`:
the anchored lazy brace-delimited namespace prefix of a qualified tag, or
`none` when the regex does not match at the start (in which case the source's
`.group()` call on `None` raises `AttributeError`). -/
def nsMatch (tag : String) : Option String :=
  match tag.data with
  | '{' :: rest => (takeToBrace rest).map (fun m => String.mk ('{' :: m ++ ['}']))
  | _ => none

/-- `Element.find(tag)`: first direct child with the given qualified tag. -/
def findChild (e : XmlElem) (t : String) : Option XmlElem :=
  (XmlElem.children e).find? (fun c => decide (XmlElem.tag c = t))

/-- Attribute lookup `elem.attrib[k]`; raises `KeyError` when absent. -/
def attrGet (e : XmlElem) (k : String) : Except PyErr String :=
  match (XmlElem.attrib e).find? (fun p => decide (p.1 = k)) with
  | some p => .ok p.2
  | none => .error .keyError

/-- A Python `try: ... except KeyError: raise BadSpreadsheetError(msg)`
block: only `KeyError` is translated; every other error passes through. -/
def catchKeyError (r : Except PyErr α) (msg : String) : Except PyErr α :=
  match r with
  | .error .keyError => .error (.badSpreadsheet msg)
  | x => x

/-- Python `dict(pairs)`: keys keep the position of their first occurrence,
values are overwritten by later occurrences of the same key. -/
def pydictIns (d : List (String × String)) (kv : String × String) :
    List (String × String) :=
  if kv.1 ∈ d.map Prod.fst then
    d.map (fun p => if p.1 = kv.1 then (p.1, kv.2) else p)
  else d ++ [kv]

/-- Build a Python dict (ordered key-value list) from a pair list. -/
def pydict (l : List (String × String)) : List (String × String) :=
  l.foldl pydictIns []

/-- Python `d[k]` on a dict; raises `KeyError` when the key is absent. -/
def dictGet (d : List (String × String)) (k : String) : Except PyErr String :=
  match d.find? (fun p => decide (p.1 = k)) with
  | some p => .ok p.2
  | none => .error .keyError

/-- `ZipFile.read(name)` through `SpreadsheetReader.getFile`: the named
member's content; `zipfile` raises `KeyError` when the member is absent. -/
def readFile (files : List (String × List Char)) (name : String) :
    Except PyErr (List Char) :=
  match files.find? (fun q => decide (q.1 = name)) with
  | some q => .ok q.2
  | none => .error .keyError

/-- The inner `getPath` of `parseWbSheets`: normalize a relationship target
to an archive path (`p[1:] if p[:4] == "/xl/" else "xl/" + p`). -/
def getPath (p : String) : String :=
  if p.data.take 4 = "/xl/".data then String.mk (p.data.drop 1) else "xl/" ++ p

/-- The relationship-namespace discovery of lines 48-52: `sheetsTag[0]`
(`TypeError` on `None`, `IndexError` on an empty sheets block), then the
first attribute key of the first sheet element that starts with an opening
brace (`IndexError` when there is none), then the namespace regex on that
key (`AttributeError` when it does not match). -/
def getRelNs : Option XmlElem → Except PyErr String
  | none => .error .typeError
  | some st =>
    match XmlElem.children st with
    | [] => .error .indexError
    | first :: _ =>
      match ((XmlElem.attrib first).map Prod.fst).filter
          (fun k => match k.data with | '{' :: _ => true | _ => false) with
      | [] => .error .indexError
      | k :: _ =>
        match nsMatch k with
        | none => .error .attributeError
        | some ns => .ok ns

/-- The list comprehension `[(i.attrib[kKey], i.attrib[vKey]) for i in elems]`
over child elements, stopping at the first missing attribute with
`KeyError`. -/
def buildPairs (elems : List XmlElem) (kKey vKey : String) :
    Except PyErr (List (String × String)) :=
  match elems with
  | [] => .ok []
  | c :: rest =>
    match attrGet c kKey with
    | .error e => .error e
    | .ok k =>
      match attrGet c vKey with
      | .error e => .error e
      | .ok v =>
        match buildPairs rest kKey vKey with
        | .error e => .error e
        | .ok tail => .ok ((k, v) :: tail)

/-- The `AllSheetsTuple` comprehension of lines 74-82: for each relationship
id, resolve the target path, read the sheet member and test it for the
literal `"<sheetProtection"` marker. -/
def buildSheets (files : List (String × List Char))
    (sheetRels sheetPaths : List (String × String)) :
    List String → Except PyErr (List (String × String × Bool))
  | [] => .ok []
  | rid :: rest =>
    match dictGet sheetPaths rid with
    | .error e => .error e
    | .ok target =>
      match dictGet sheetRels rid with
      | .error e => .error e
      | .ok nm =>
        match readFile files (getPath target) with
        | .error e => .error e
        | .ok content =>
          match buildSheets files sheetRels sheetPaths rest with
          | .error e => .error e
          | .ok tail =>
            .ok ((getPath target, nm, containsSub sheetProtLit content) :: tail)

/-- The reader attributes `parseWbSheets` computes on success. -/
structure IndexResult where
  protectedSheets : List (String × String)
  unprotectedSheets : List (String × String)
  wbProt : Bool
deriving DecidableEq

/-- `SpreadsheetReader.parseWbSheets`.  Inputs: the parsed roots of
`xl/workbook.xml` and `xl/_rels/workbook.xml.rels` (`none` models the member
being absent from the archive, which the source's `except KeyError` turns
into the corresponding `BadSpreadsheetError`; an unparsable member raises an
uncaught `xml.etree` `ParseError` before this point and is outside this
model), and the archive's members for the sheet reads.  Every failure path
mirrors the exact exception the Python raises, typed or not. -/
def parseWbSheets (workbookXml relsXml : Option XmlElem)
    (files : List (String × List Char)) : Except PyErr IndexResult :=
  match workbookXml with
  | none => .error (.badSpreadsheet "workbook.xml not found or corrupt")
  | some workbookRoot =>
    match nsMatch (XmlElem.tag workbookRoot) with
    | none => .error .attributeError
    | some xmlnsWb =>
      match catchKeyError (getRelNs (findChild workbookRoot (xmlnsWb ++ "sheets")))
          "Failed to parse workbook.xml" with
      | .error e => .error e
      | .ok xmlnsWbRel =>
        match findChild workbookRoot (xmlnsWb ++ "sheets") with
        | none => .error .typeError
        | some st =>
          match buildPairs (XmlElem.children st) (xmlnsWbRel ++ "id") "name" with
          | .error e => .error e
          | .ok sheetRelsPairs =>
            match relsXml with
            | none => .error (.badSpreadsheet "workbook.xml.rels not found or corrupt")
            | some relsRoot =>
              match catchKeyError
                  (buildPairs (XmlElem.children relsRoot) "Id" "Target")
                  "Failed to parse workbook.xml.rels" with
              | .error e => .error e
              | .ok sheetPathsPairs =>
                match catchKeyError
                    (buildSheets files (pydict sheetRelsPairs) (pydict sheetPathsPairs)
                      ((pydict sheetRelsPairs).map Prod.fst))
                    "Sheet expected but not found" with
                | .error e => .error e
                | .ok sheets =>
                  .ok
                    { protectedSheets :=
                        (sheets.filter (fun s => s.2.2)).map (fun s => (s.1, s.2.1)),
                      unprotectedSheets :=
                        (sheets.filter (fun s => !s.2.2)).map (fun s => (s.1, s.2.1)),
                      wbProt :=
                        match findChild workbookRoot (xmlnsWb ++ "workbookProtection") with
                        | some t => decide (0 < (XmlElem.attrib t).length)
                        | none => false }

/-- The three protection attributes of a `SpreadsheetReader`: `none` models
an instance attribute that has never been assigned, whose read raises
`AttributeError`. -/
structure ReaderState where
  wbProt : Option Bool
  protectedSheets : Option (List (String × String))
  unprotectedSheets : Option (List (String × String))
deriving DecidableEq

/-- `SpreadsheetReader.__init__` assigns none of the three protection
attributes. -/
def initReader : ReaderState := ⟨none, none, none⟩

/-- Running `parseWbSheets` as a state update: on success all three
attributes are assigned; on failure the raise happens before the first of
the assignments on lines 86-97, so the state is untouched. -/
def runIndex (st : ReaderState) (workbookXml relsXml : Option XmlElem)
    (files : List (String × List Char)) : ReaderState × Option PyErr :=
  match parseWbSheets workbookXml relsXml files with
  | .ok r => (⟨some r.wbProt, some r.protectedSheets, some r.unprotectedSheets⟩, none)
  | .error e => (st, some e)

/-- Reading a Python instance attribute: `AttributeError` when it was never
assigned. -/
def getAttr : Option α → Except PyErr α
  | none => .error .attributeError
  | some v => .ok v

/-- Model of the external `ruamel.std.zipfile.ZipFile` constructor contract:
it raises `BadZipFile` exactly when the input bytes are not a valid zip
container; the container-format check itself lives in the external library,
so it is abstracted to the Boolean `isValidZip`. -/
def zipFileOpen (isValidZip : Bool) : Except Unit Unit :=
  if isValidZip then .ok () else .error ()

/-- `SpreadsheetReader.__init__`: open the archive, translating the
library's `BadZipFile` into `BadSpreadsheetError("Not a zip file")`. -/
def readerOpen (isValidZip : Bool) : Except PyErr Unit :=
  match zipFileOpen isValidZip with
  | .ok h => .ok h
  | .error () => .error (.badSpreadsheet "Not a zip file")

theorem catchKeyError_ok {α : Type} {r : Except PyErr α} {msg : String} {a : α}
    (h : catchKeyError r msg = .ok a) : r = .ok a := by
  cases r with
  | ok b => simpa [catchKeyError] using h
  | error e => cases e <;> simp [catchKeyError] at h

theorem pydict_go (l : List (String × String)) :
    ∀ acc, (((acc ++ l).map Prod.fst)).Nodup → l.foldl pydictIns acc = acc ++ l := by
  induction l with
  | nil => intro acc _; simp
  | cons kv rest ih =>
    intro acc hnd
    have hkey : kv.1 ∉ acc.map Prod.fst := by
      intro hmem
      rw [List.map_append] at hnd
      have hdisj := (List.nodup_append.mp hnd).2.2
      exact hdisj hmem (by simp)
    have hins : pydictIns acc kv = acc ++ [kv] := by
      rw [pydictIns, if_neg hkey]
    calc (kv :: rest).foldl pydictIns acc
        = rest.foldl pydictIns (pydictIns acc kv) := rfl
      _ = rest.foldl pydictIns (acc ++ [kv]) := by rw [hins]
      _ = (acc ++ [kv]) ++ rest := by
          apply ih
          rw [← List.append_cons]
          exact hnd
      _ = acc ++ kv :: rest := by rw [← List.append_cons]

theorem pydict_eq_self {l : List (String × String)}
    (h : (l.map Prod.fst).Nodup) : pydict l = l := by
  simpa using pydict_go l [] (by simpa using h)

theorem buildPairs_length {elems : List XmlElem} {kKey vKey : String}
    {pairs : List (String × String)}
    (h : buildPairs elems kKey vKey = .ok pairs) : pairs.length = elems.length := by
  induction elems generalizing pairs with
  | nil =>
    have h' := Except.ok.inj h
    subst h'
    rfl
  | cons c rest ih =>
    simp only [buildPairs] at h
    split at h
    · exact Except.noConfusion h
    split at h
    · exact Except.noConfusion h
    split at h
    · exact Except.noConfusion h
    rename_i tail htail
    have h' := Except.ok.inj h
    subst h'
    simp [ih htail]

theorem buildSheets_length {files : List (String × List Char)}
    {rels paths : List (String × String)} {rids : List String}
    {sheets : List (String × String × Bool)}
    (h : buildSheets files rels paths rids = .ok sheets) :
    sheets.length = rids.length := by
  induction rids generalizing sheets with
  | nil =>
    have h' := Except.ok.inj h
    subst h'
    rfl
  | cons rid rest ih =>
    simp only [buildSheets] at h
    split at h
    · exact Except.noConfusion h
    split at h
    · exact Except.noConfusion h
    split at h
    · exact Except.noConfusion h
    split at h
    · exact Except.noConfusion h
    rename_i tail htail
    have h' := Except.ok.inj h
    subst h'
    simp [ih htail]

theorem buildSheets_mem {files : List (String × List Char)}
    {rels paths : List (String × String)} {rids : List String}
    {sheets : List (String × String × Bool)}
    (h : buildSheets files rels paths rids = .ok sheets) :
    ∀ s ∈ sheets, ∃ c, readFile files s.1 = .ok c
      ∧ s.2.2 = containsSub sheetProtLit c := by
  induction rids generalizing sheets with
  | nil =>
    have h' := Except.ok.inj h
    subst h'
    intro s hs
    cases hs
  | cons rid rest ih =>
    simp only [buildSheets] at h
    split at h
    · exact Except.noConfusion h
    split at h
    · exact Except.noConfusion h
    rename_i target htarget nm hnm
    split at h
    · exact Except.noConfusion h
    rename_i content hcontent
    split at h
    · exact Except.noConfusion h
    rename_i tail htail
    have h' := Except.ok.inj h
    subst h'
    intro s hs
    rcases List.mem_cons.mp hs with hs | hs
    · subst hs
      exact ⟨content, hcontent, rfl⟩
    · exact ih htail s hs

theorem length_filter_partition {α : Type} (l : List α) (p : α → Bool) :
    (l.filter p).length + (l.filter (fun x => !p x)).length = l.length := by
  induction l with
  | nil => rfl
  | cons x xs ih =>
    by_cases hx : p x = true
    · simp only [List.filter_cons, hx, if_true, Bool.not_true, Bool.false_eq_true,
        if_false, List.length_cons]
      omega
    · have hx' : p x = false := by simpa using hx
      simp only [List.filter_cons, hx', Bool.false_eq_true, if_false, Bool.not_false,
        if_true, List.length_cons]
      omega

theorem countP_le_one_unique {α : Type} (p : α → Bool) {l : List α}
    (h : l.countP p ≤ 1) {a b : α} (ha : a ∈ l) (hpa : p a = true)
    (hb : b ∈ l) (hpb : p b = true) : a = b := by
  induction l with
  | nil => cases ha
  | cons x xs ih =>
    rw [List.countP_cons] at h
    by_cases hx : p x = true
    · rw [if_pos hx] at h
      have hz : xs.countP p = 0 := by omega
      have hnone := List.countP_eq_zero.mp hz
      have ha' : a = x := by
        rcases List.mem_cons.mp ha with h' | h'
        · exact h'
        · exact absurd hpa (hnone a h')
      have hb' : b = x := by
        rcases List.mem_cons.mp hb with h' | h'
        · exact h'
        · exact absurd hpb (hnone b h')
      rw [ha', hb']
    · rw [if_neg hx] at h
      have ha' : a ∈ xs := by
        rcases List.mem_cons.mp ha with h' | h'
        · exact absurd (h' ▸ hpa) hx
        · exact h'
      have hb' : b ∈ xs := by
        rcases List.mem_cons.mp hb with h' | h'
        · exact absurd (h' ▸ hpb) hx
        · exact h'
      exact ih (by omega) ha' hb'

/-- Successful-run inversion for `parseWbSheets`: names every intermediate
value of the pipeline and the three result fields. -/
theorem parseWbSheets_ok_inv {wr rr : XmlElem} {files : List (String × List Char)}
    {r : IndexResult} (hok : parseWbSheets (some wr) (some rr) files = .ok r) :
    ∃ ns st relNs sheetRelsPairs sheetPathsPairs sheets,
      nsMatch (XmlElem.tag wr) = some ns
      ∧ findChild wr (ns ++ "sheets") = some st
      ∧ getRelNs (some st) = .ok relNs
      ∧ buildPairs (XmlElem.children st) (relNs ++ "id") "name" = .ok sheetRelsPairs
      ∧ buildPairs (XmlElem.children rr) "Id" "Target" = .ok sheetPathsPairs
      ∧ buildSheets files (pydict sheetRelsPairs) (pydict sheetPathsPairs)
          ((pydict sheetRelsPairs).map Prod.fst) = .ok sheets
      ∧ r.protectedSheets = (sheets.filter (fun s => s.2.2)).map (fun s => (s.1, s.2.1))
      ∧ r.unprotectedSheets
        = (sheets.filter (fun s => !s.2.2)).map (fun s => (s.1, s.2.1))
      ∧ r.wbProt = (match findChild wr (ns ++ "workbookProtection") with
          | some t => decide (0 < (XmlElem.attrib t).length)
          | none => false) := by
  simp only [parseWbSheets] at hok
  split at hok
  · exact Except.noConfusion hok
  rename_i ns hns
  split at hok
  · exact Except.noConfusion hok
  rename_i relNs hrel
  split at hok
  · exact Except.noConfusion hok
  rename_i st hst
  split at hok
  · exact Except.noConfusion hok
  rename_i sheetRelsPairs hp1
  split at hok
  · exact Except.noConfusion hok
  rename_i sheetPathsPairs hp2
  split at hok
  · exact Except.noConfusion hok
  rename_i sheets hsheets
  have hr := Except.ok.inj hok
  subst hr
  have hrel' : getRelNs (some st) = .ok relNs := by
    rw [hst] at hrel
    exact catchKeyError_ok hrel
  exact ⟨ns, st, relNs, sheetRelsPairs, sheetPathsPairs, sheets, hns, hst, hrel',
    hp1, catchKeyError_ok hp2, catchKeyError_ok hsheets, rfl, rfl, rfl⟩

/-- C3: on a successfully indexed package whose sheet elements carry
pairwise-distinct relationship ids and whose sheets block holds only sheet
elements, the two sheet lists are disjoint and together count exactly the
sheet elements declared in `xl/workbook.xml`. -/
theorem c3_partition (wr rr : XmlElem) (files : List (String × List Char))
    (ns relNs : String) (st : XmlElem) (pairs : List (String × String))
    (r : IndexResult)
    (hns : nsMatch (XmlElem.tag wr) = some ns)
    (hst : findChild wr (ns ++ "sheets") = some st)
    (hrel : getRelNs (some st) = .ok relNs)
    (hpairs : buildPairs (XmlElem.children st) (relNs ++ "id") "name" = .ok pairs)
    (hnodup : (pairs.map Prod.fst).Nodup)
    (hsheet : ∀ c ∈ XmlElem.children st, XmlElem.tag c = ns ++ "sheet")
    (hok : parseWbSheets (some wr) (some rr) files = .ok r) :
    (∀ s ∈ r.protectedSheets, s ∉ r.unprotectedSheets)
    ∧ r.protectedSheets.length + r.unprotectedSheets.length
      = ((XmlElem.children st).filter
          (fun c => decide (XmlElem.tag c = ns ++ "sheet"))).length := by
  obtain ⟨ns', st', relNs', p1, p2, sheets, hns', hst', hrel', hp1, _hp2, hsheets,
    hprot, hunprot, _⟩ := parseWbSheets_ok_inv hok
  have hnseq : ns = ns' := by
    rw [hns] at hns'
    exact Option.some.inj hns'
  subst hnseq
  have hsteq : st = st' := by
    rw [hst] at hst'
    exact Option.some.inj hst'
  subst hsteq
  have hreleq : relNs = relNs' := by
    rw [hrel] at hrel'
    exact Except.ok.inj hrel'
  subst hreleq
  have hpeq : pairs = p1 := by
    rw [hpairs] at hp1
    exact Except.ok.inj hp1
  subst hpeq
  rw [pydict_eq_self hnodup] at hsheets
  constructor
  · intro s hs hs'
    rw [hprot] at hs
    rw [hunprot] at hs'
    obtain ⟨a, ha, has⟩ := List.mem_map.mp hs
    obtain ⟨b, hb, hbs⟩ := List.mem_map.mp hs'
    obtain ⟨hamem, hatrue⟩ := List.mem_filter.mp ha
    obtain ⟨hbmem, hbfalse⟩ := List.mem_filter.mp hb
    obtain ⟨c1, hc1, hflag1⟩ := buildSheets_mem hsheets a hamem
    obtain ⟨c2, hc2, hflag2⟩ := buildSheets_mem hsheets b hbmem
    have hba : b.1 = a.1 := by
      have hpair : (b.1, b.2.1) = (a.1, a.2.1) := has ▸ hbs
      exact (Prod.ext_iff.mp hpair).1
    rw [hba, hc1] at hc2
    have hcc := Except.ok.inj hc2
    subst hcc
    have h1 : containsSub sheetProtLit c1 = true := hflag1.symm.trans hatrue
    have h2 : containsSub sheetProtLit c1 = false :=
      hflag2.symm.trans (by simpa using hbfalse)
    rw [h1] at h2
    exact Bool.noConfusion h2
  · rw [hprot, hunprot, List.length_map, List.length_map,
      length_filter_partition sheets (fun s => s.2.2)]
    have hlen1 : sheets.length = (pairs.map Prod.fst).length :=
      buildSheets_length hsheets
    have hlen2 : pairs.length = (XmlElem.children st).length :=
      buildPairs_length hpairs
    have hfilter : (XmlElem.children st).filter
        (fun c => decide (XmlElem.tag c = ns ++ "sheet")) = XmlElem.children st :=
      List.filter_eq_self.mpr (fun a ha => by simpa using hsheet a ha)
    rw [hfilter, hlen1, List.length_map, hlen2]

/-- The workbook root of the spec's two-sheet scenario package. -/
def wbRootEx : XmlElem :=
  .mk "\x7bW\x7dworkbook" []
    [.mk "\x7bW\x7dsheets" []
      [.mk "\x7bW\x7dsheet" [("\x7bR\x7did", "rId1"), ("name", "Sheet1")] [],
       .mk "\x7bW\x7dsheet" [("\x7bR\x7did", "rId2"), ("name", "Sheet2")] []]]

/-- The sheets element of `wbRootEx`. -/
def sheetsElemEx : XmlElem :=
  .mk "\x7bW\x7dsheets" []
    [.mk "\x7bW\x7dsheet" [("\x7bR\x7did", "rId1"), ("name", "Sheet1")] [],
     .mk "\x7bW\x7dsheet" [("\x7bR\x7did", "rId2"), ("name", "Sheet2")] []]

/-- The relationship root of the scenario package. -/
def relsRootEx : XmlElem :=
  .mk "Relationships" []
    [.mk "Relationship" [("Id", "rId1"), ("Target", "worksheets/sheet1.xml")] [],
     .mk "Relationship" [("Id", "rId2"), ("Target", "worksheets/sheet2.xml")] []]

/-- The two worksheet members of the scenario package: sheet1 protected,
sheet2 not. -/
def filesEx : List (String × List Char) :=
  [("xl/worksheets/sheet1.xml",
    "<worksheet><sheetProtection sheet=\"1\"/></worksheet>".data),
   ("xl/worksheets/sheet2.xml", "<worksheet/>".data)]

/-- The index result of the scenario package. -/
def resEx : IndexResult :=
  { protectedSheets := [("xl/worksheets/sheet1.xml", "Sheet1")],
    unprotectedSheets := [("xl/worksheets/sheet2.xml", "Sheet2")],
    wbProt := false }

/-- C3 witness: the spec's two-sheet scenario package, fully indexed. -/
theorem c3_witness :
    ((([("rId1", "Sheet1"), ("rId2", "Sheet2")] : List (String × String)).map
      Prod.fst).Nodup)
    ∧ (∀ c ∈ XmlElem.children sheetsElemEx, XmlElem.tag c = "\x7bW\x7d" ++ "sheet")
    ∧ ((∀ s ∈ resEx.protectedSheets, s ∉ resEx.unprotectedSheets)
      ∧ resEx.protectedSheets.length + resEx.unprotectedSheets.length
        = ((XmlElem.children sheetsElemEx).filter
            (fun c => decide (XmlElem.tag c = "\x7bW\x7d" ++ "sheet"))).length) :=
  ⟨by decide, by decide,
    c3_partition wbRootEx relsRootEx filesEx "\x7bW\x7d" "\x7bR\x7d" sheetsElemEx
      [("rId1", "Sheet1"), ("rId2", "Sheet2")] resEx rfl rfl rfl rfl (by decide)
      (by decide) rfl⟩

/-- C4: on a successfully indexed package whose workbook root holds at most
one workbook-protection element (at most one per part, as OOXML guarantees),
the workbook-protected flag is true exactly when such an element exists with
at least one attribute; a zero-attribute element yields false. -/
theorem c4_wbprot (wr rr : XmlElem) (files : List (String × List Char))
    (ns : String) (r : IndexResult)
    (hns : nsMatch (XmlElem.tag wr) = some ns)
    (hone : (XmlElem.children wr).countP
        (fun c => decide (XmlElem.tag c = ns ++ "workbookProtection")) ≤ 1)
    (hok : parseWbSheets (some wr) (some rr) files = .ok r) :
    (r.wbProt = true ↔ ∃ c ∈ XmlElem.children wr,
      XmlElem.tag c = ns ++ "workbookProtection" ∧ XmlElem.attrib c ≠ []) := by
  obtain ⟨ns', _, _, _, _, _, hns', _, _, _, _, _, _, _, hwb⟩ :=
    parseWbSheets_ok_inv hok
  have hnseq : ns = ns' := by
    rw [hns] at hns'
    exact Option.some.inj hns'
  subst hnseq
  rw [hwb]
  cases hfc : findChild wr (ns ++ "workbookProtection") with
  | none =>
    simp only [hfc]
    constructor
    · intro h
      exact absurd h (by simp)
    · rintro ⟨c, hc, htag, _⟩
      have := List.find?_eq_none.mp hfc c hc
      simp [htag] at this
  | some t =>
    have htmem : t ∈ XmlElem.children wr := List.mem_of_find?_eq_some hfc
    have httag : XmlElem.tag t = ns ++ "workbookProtection" := by
      have := List.find?_some hfc
      simpa using this
    simp only [hfc, decide_eq_true_eq]
    constructor
    · intro hlen
      exact ⟨t, htmem, httag, List.length_pos.mp hlen⟩
    · rintro ⟨c, hc, htag, hattr⟩
      have hct : c = t :=
        countP_le_one_unique _ hone hc (by simpa using htag) htmem
          (by simpa using httag)
      rw [← hct]
      exact List.length_pos.mpr hattr

/-- A workbook root with a one-attribute workbook-protection element. -/
def wbRootProtEx : XmlElem :=
  .mk "\x7bW\x7dworkbook" []
    [.mk "\x7bW\x7dsheets" []
      [.mk "\x7bW\x7dsheet" [("\x7bR\x7did", "rId1"), ("name", "Sheet1")] []],
     .mk "\x7bW\x7dworkbookProtection" [("workbookPassword", "X")] []]

/-- A single-relationship rels root for the one-sheet packages. -/
def relsRootOneEx : XmlElem :=
  .mk "Relationships" []
    [.mk "Relationship" [("Id", "rId1"), ("Target", "worksheets/sheet1.xml")] []]

/-- C4 witness: indexing a package whose workbook has a password-protected
structure sets the flag, matching the existence of the attributed element. -/
theorem c4_witness :
    ((XmlElem.children wbRootProtEx).countP
      (fun c => decide (XmlElem.tag c = "\x7bW\x7d" ++ "workbookProtection")) ≤ 1)
    ∧ ((true : Bool) = true ↔ ∃ c ∈ XmlElem.children wbRootProtEx,
        XmlElem.tag c = "\x7bW\x7d" ++ "workbookProtection"
          ∧ XmlElem.attrib c ≠ []) :=
  ⟨by decide,
    c4_wbprot wbRootProtEx relsRootOneEx filesEx "\x7bW\x7d"
      { protectedSheets := [("xl/worksheets/sheet1.xml", "Sheet1")],
        unprotectedSheets := [], wbProt := true }
      rfl (by decide) rfl⟩

/-- A workbook root that parses as XML but has no sheets element in the
root namespace. -/
def wbRootNoSheetsEx : XmlElem :=
  .mk "\x7bW\x7dworkbook" [] [.mk "\x7bW\x7dfoo" [] []]

/-- C6: on a workbook root lacking the sheets element, `parseWbSheets` fails
with the untyped `TypeError` of subscripting `None` on line 50, not with
`BadSpreadsheetError("Failed to parse workbook.xml")`: the guard on lines
48-52 catches `KeyError` only, which this path never raises. -/
theorem c6_missing_sheets_typeerror :
    parseWbSheets (some wbRootNoSheetsEx) (some (XmlElem.mk "Relationships" [] []))
      [] = .error .typeError := rfl

/-- C7: the relationship-target normalization of the inner `getPath`: a
target beginning with the package-root segment loses exactly its leading
slash, any other target gains the `xl/` prefix, and either way the result
starts with `xl/`. -/
theorem isPre_iff_take : ∀ (pat s : List Char),
    isPre pat s = true ↔ s.take pat.length = pat := by
  intro pat
  induction pat with
  | nil => intro s; simp [isPre]
  | cons a as ih =>
    intro s
    cases s with
    | nil => simp [isPre]
    | cons b bs =>
      simp only [isPre, Bool.and_eq_true, beq_iff_eq, List.length_cons,
        List.take_succ_cons, List.cons.injEq]
      constructor
      · rintro ⟨hab, hpre⟩
        exact ⟨hab.symm, (ih bs).mp hpre⟩
      · rintro ⟨hab, ht⟩
        exact ⟨hab.symm, (ih bs).mpr ht⟩

theorem c7_getpath (p : String) :
    (isPre "/xl/".data p.data = true → getPath p = String.mk (p.data.drop 1))
    ∧ (isPre "/xl/".data p.data = false → getPath p = "xl/" ++ p)
    ∧ isPre "xl/".data (getPath p).data = true := by
  by_cases h : p.data.take 4 = "/xl/".data
  · have hpre : isPre "/xl/".data p.data = true := (isPre_iff_take _ _).mpr h
    refine ⟨fun _ => by rw [getPath, if_pos h],
      fun hf => by rw [hpre] at hf; exact Bool.noConfusion hf, ?_⟩
    rw [getPath, if_pos h]
    have hp : p.data = '/' :: 'x' :: 'l' :: '/' :: p.data.drop 4 := by
      conv_lhs => rw [← List.take_append_drop 4 p.data]
      rw [h]
      rfl
    rw [hp]
    rfl
  · have hpre : isPre "/xl/".data p.data = false := by
      cases hx : isPre "/xl/".data p.data
      · rfl
      · exact absurd ((isPre_iff_take _ _).mp hx) h
    refine ⟨fun ht => by rw [hpre] at ht; exact Bool.noConfusion ht,
      fun _ => by rw [getPath, if_neg h], ?_⟩
    rw [getPath, if_neg h, String.data_append]
    exact isPre_append_self "xl/".data _

/-- C7 witness: both normalization branches at concrete relationship
targets. -/
theorem c7_witness :
    isPre "/xl/".data "/xl/worksheets/sheet2.xml".data = true
    ∧ getPath "/xl/worksheets/sheet2.xml"
      = String.mk ("/xl/worksheets/sheet2.xml".data.drop 1)
    ∧ isPre "/xl/".data "worksheets/sheet1.xml".data = false
    ∧ getPath "worksheets/sheet1.xml" = "xl/" ++ "worksheets/sheet1.xml" :=
  ⟨by decide, (c7_getpath "/xl/worksheets/sheet2.xml").1 (by decide),
    by decide, (c7_getpath "worksheets/sheet1.xml").2.1 (by decide)⟩

/-- C9: opening a source that is not a valid zip container surfaces
`BadSpreadsheetError("Not a zip file")` (the library's `BadZipFile` is
caught and translated); opening a valid container succeeds. -/
theorem c9_open (isValidZip : Bool) :
    (isValidZip = false →
      readerOpen isValidZip = .error (.badSpreadsheet "Not a zip file"))
    ∧ (isValidZip = true → readerOpen isValidZip = .ok ()) := by
  cases isValidZip <;> simp [readerOpen, zipFileOpen]

/-- C9 witness: both branches at the concrete truth values. -/
theorem c9_witness :
    readerOpen false = .error (.badSpreadsheet "Not a zip file")
    ∧ readerOpen true = .ok () :=
  ⟨(c9_open false).1 rfl, (c9_open true).2 rfl⟩

/-- C10: the constructor leaves all three protection attributes unassigned,
so reading any of them raises `AttributeError`; and a failing index run
assigns none of them, because every raise in `parseWbSheets` happens before
the assignments of lines 86-97. -/
theorem c10_attrs_uninitialized :
    getAttr (ReaderState.wbProt initReader) = (.error .attributeError : Except PyErr Bool)
    ∧ getAttr (ReaderState.protectedSheets initReader)
      = (.error .attributeError : Except PyErr (List (String × String)))
    ∧ getAttr (ReaderState.unprotectedSheets initReader)
      = (.error .attributeError : Except PyErr (List (String × String)))
    ∧ ∀ (workbookXml relsXml : Option XmlElem) (files : List (String × List Char))
        (e : PyErr),
        parseWbSheets workbookXml relsXml files = .error e →
        (runIndex initReader workbookXml relsXml files).1 = initReader := by
  refine ⟨rfl, rfl, rfl, fun w rel f e he => ?_⟩
  simp [runIndex, he]

/-- C10 witness: a failing index on an archive with no workbook part leaves
the freshly constructed reader's state untouched. -/
theorem c10_witness :
    parseWbSheets none none []
      = .error (.badSpreadsheet "workbook.xml not found or corrupt")
    ∧ (runIndex initReader none none []).1 = initReader :=
  ⟨rfl, c10_attrs_uninitialized.2.2.2 none none []
    (.badSpreadsheet "workbook.xml not found or corrupt") rfl⟩

end SpreadsheetUnprotect
